import Mathlib

/-!
# Verification of the nanobot background subagent subsystem

Shallow embedding of the subagent tracker (`nanobot/agent/subagent.py`),
the activity formatter (`nanobot/cli/activity.py`) and the status query
tool (`nanobot/agent/tools/subagent_status.py`), together with theorems
settling the specification claims about them.

Modelling conventions:
* Python strings are Lean `String`s; Python slicing (which is by code
  point) is embedded through explicit helpers over `String.data`.
* `datetime.now()` is modelled as an explicit logical-clock argument of
  type `Nat`; wall-clock reads are monotone.
* Python `dict` (insertion ordered, unique keys) is modelled as an
  association list; insertion updates an existing key in place and
  appends a fresh key at the end, as CPython does.
* `None` becomes `Option.none`; Python truthiness of an optional string
  (`if tool_name:`) is "is `some s` with `s ≠ ""`".
-/

namespace Nanobot

/-! ## Python string primitives

All operations work on `String.data` (the list of code points), matching
Python's code-point-indexed semantics. -/

/-- Length of a Python string in code points (`len(s)`). -/
def strLen (s : String) : Nat := s.data.length

/-- Python `s[:n]` for a non-negative `n`. -/
def strTake (s : String) (n : Nat) : String := String.mk (s.data.take n)

/-- Python `s[n:]` for a non-negative `n`. -/
def strDrop (s : String) (n : Nat) : String := String.mk (s.data.drop n)

/-- Python `c in s` for a single character. -/
def strContains (s : String) (c : Char) : Bool := s.data.contains c

/-- Python `s[i:]` with a possibly negative start index: a negative `i`
counts from the end, clamped to the start of the string. -/
def sliceFrom (s : String) (i : Int) : String :=
  if i < 0 then strDrop s (max ((strLen s : Int) + i) 0).toNat
  else strDrop s i.toNat

/-- Python `s[:j]` with a possibly negative stop index: a negative `j`
counts from the end, clamped to the start of the string. -/
def sliceTo (s : String) (j : Int) : String :=
  if j < 0 then strTake s (max ((strLen s : Int) + j) 0).toNat
  else strTake s j.toNat

/-! ## Association-list embedding of Python dict -/

/-- Python `d.get(k)`: the value stored at `k`, if any. -/
def dictGet {α : Type} (m : List (String × α)) (k : String) : Option α :=
  match m with
  | [] => none
  | (k', v) :: rest => if k' = k then some v else dictGet rest k

/-- Python `d[k] = v`: update the existing entry in place (keeping its
position), or append a fresh entry at the end. -/
def dictSet {α : Type} (m : List (String × α)) (k : String) (v : α) :
    List (String × α) :=
  match m with
  | [] => [(k, v)]
  | (k', v') :: rest =>
      if k' = k then (k, v) :: rest else (k', v') :: dictSet rest k v

/-- Deletion of a set of keys (`for k in ks: del d[k]`), as the order
preserving filter that drops every entry whose key is listed. -/
def dictDropKeys {α : Type} (m : List (String × α)) (ks : List String) :
    List (String × α) :=
  m.filter (fun p => p.1 ∉ ks)

/-! ## Data model: `SubagentInfo` (subagent.py lines 26-78) -/

/-- Tool arguments: a Python dict of string keys and values. -/
abbrev ToolArgs := List (String × String)

/-- One tracked subagent record (`SubagentInfo` dataclass).
Timestamps are logical-clock `Nat` values. -/
structure SubagentInfo where
  task_id : String
  task : String
  label : String
  origin : List (String × String)
  status : String := "running"
  iteration : Nat := 0
  max_iterations : Nat := 15
  current_phase : String := "starting"
  current_tool : Option String := none
  current_tool_args : Option ToolArgs := none
  tools_used : List String := []
  started_at : Nat := 0
  ended_at : Option Nat := none
  result_summary : Option String := none
  error_message : Option String := none
deriving Repr, DecidableEq

/-! ## Tracker (`SubagentTracker`, subagent.py lines 85-164) -/

/-- The tracker: an insertion-ordered map from task id to record, plus
the retention bound `max_completed` (constructor default 20). -/
structure SubagentTracker where
  agents : List (String × SubagentInfo) := []
  max_completed : Nat := 20
deriving Repr, DecidableEq

namespace SubagentTracker

/-- `register(info)`: unconditional insert keyed by `info.task_id`. -/
def register (t : SubagentTracker) (info : SubagentInfo) : SubagentTracker :=
  { t with agents := dictSet t.agents info.task_id info }

/-- `get(task_id)`: point lookup. -/
def get (t : SubagentTracker) (task_id : String) : Option SubagentInfo :=
  dictGet t.agents task_id

/-- Sort key used by `_prune_completed`: `a.ended_at or a.started_at`.
(`ended_at` of a completed record is a positive clock value, so Python's
`or` picks `ended_at` exactly when it is not `None`.) -/
def sortKey (a : SubagentInfo) : Nat := a.ended_at.getD a.started_at

/-- The `completed` local of `_prune_completed`: all non-running
entries, in registration order. -/
def completedEntries (t : SubagentTracker) : List (String × SubagentInfo) :=
  t.agents.filter (fun p => p.2.status ≠ "running")

/-- The comparison `_prune_completed` sorts by. -/
def pruneLE (a b : String × SubagentInfo) : Bool :=
  sortKey a.2 ≤ sortKey b.2

/-- Stable insertion of an entry into a list already sorted by
`pruneLE`: it goes in front of the first entry it compares `≤` to,
hence behind every earlier entry with an equal key. -/
def insertSorted (a : String × SubagentInfo) :
    List (String × SubagentInfo) → List (String × SubagentInfo)
  | [] => [a]
  | b :: l => if pruneLE a b then a :: b :: l else b :: insertSorted a l

/-- Stable sort by `pruneLE`.  Python `list.sort` (Timsort) is stable;
every stable sort by the same key produces the same list, so a stable
insertion sort is an extensionally exact embedding of it. -/
def stableSortByKey : List (String × SubagentInfo) → List (String × SubagentInfo)
  | [] => []
  | x :: xs => insertSorted x (stableSortByKey xs)

/-- The non-running entries stably sorted by `sortKey`. -/
def sortedCompleted (t : SubagentTracker) : List (String × SubagentInfo) :=
  stableSortByKey (completedEntries t)

/-- The keys deleted by `_prune_completed`: the oldest entries beyond
the retention bound (`completed[: len(completed) - max_completed]`). -/
def doomedKeys (t : SubagentTracker) : List String :=
  ((sortedCompleted t).take ((completedEntries t).length - t.max_completed)).map
    (fun p => p.1)

/-- `_prune_completed()`: when the number of non-running records exceeds
`max_completed`, stably sort them by `sortKey` and delete the oldest
ones from the map until `max_completed` remain. -/
def prune_completed (t : SubagentTracker) : SubagentTracker :=
  if (completedEntries t).length > t.max_completed then
    { t with agents := dictDropKeys t.agents (doomedKeys t) }
  else t

/-- The number of non-running records held by the tracker. -/
def nonRunningCount (t : SubagentTracker) : Nat :=
  (completedEntries t).length

/-- The record mutation performed by `update_phase` on a found record
(subagent.py lines 115-125): sets the phase; entering `"tool_running"`
records the current tool and appends a truthy tool name to
`tools_used`; entering `"thinking"` clears the current-tool fields. -/
def phaseInfo (info : SubagentInfo) (phase : String) (iteration : Option Nat)
    (tool_name : Option String) (tool_args : Option ToolArgs) : SubagentInfo :=
  let info := { info with current_phase := phase }
  let info :=
    match iteration with
    | some i => { info with iteration := i }
    | none => info
  if phase = "tool_running" then
    let info := { info with current_tool := tool_name,
                            current_tool_args := tool_args }
    match tool_name with
    | some n =>
        if n ≠ "" then { info with tools_used := info.tools_used ++ [n] }
        else info
    | none => info
  else if phase = "thinking" then
    { info with current_tool := none, current_tool_args := none }
  else info

/-- `update_phase(task_id, phase, *, iteration=None, tool_name=None,
tool_args=None)`: no-op on an unknown id, else `phaseInfo` in place. -/
def update_phase (t : SubagentTracker) (task_id phase : String)
    (iteration : Option Nat) (tool_name : Option String)
    (tool_args : Option ToolArgs) : SubagentTracker :=
  match dictGet t.agents task_id with
  | none => t
  | some info =>
      let info := phaseInfo info phase iteration tool_name tool_args
      { t with agents := dictSet t.agents task_id info }

/-- The record mutation performed by `mark_completed` on a found record
(subagent.py lines 138-144). -/
def completeInfo (info : SubagentInfo) (status : String)
    (result_summary error_message : Option String) (now : Nat) : SubagentInfo :=
  { info with
    status := status
    current_phase := "done"
    current_tool := none
    current_tool_args := none
    ended_at := some now
    result_summary := result_summary
    error_message := error_message }

/-- `mark_completed(task_id, status, result_summary=None,
error_message=None)`: no-op on an unknown id; otherwise applies
`completeInfo` at clock `now` and then prunes. -/
def mark_completed (t : SubagentTracker) (task_id status : String)
    (result_summary error_message : Option String) (now : Nat) :
    SubagentTracker :=
  match dictGet t.agents task_id with
  | none => t
  | some info =>
      let info := completeInfo info status result_summary error_message now
      prune_completed { t with agents := dictSet t.agents task_id info }

/-- `get_running()`. -/
def get_running (t : SubagentTracker) : List SubagentInfo :=
  (t.agents.filter (fun p => p.2.status = "running")).map (fun p => p.2)

/-- `get_all()`. -/
def get_all (t : SubagentTracker) : List SubagentInfo :=
  t.agents.map (fun p => p.2)

/-- `get_running_count()`. -/
def get_running_count (t : SubagentTracker) : Nat :=
  (t.agents.filter (fun p => p.2.status = "running")).length

end SubagentTracker

/-! ## Activity formatter (`nanobot/cli/activity.py`) -/

/-- Maximum display width for argument values. -/
def MAX_ARG_DISPLAY : Nat := 60

/-- `truncate(value, max_len=MAX_ARG_DISPLAY)`: identity when the value
fits; otherwise keep the last `max_len - 3` code points behind an
ellipsis when the value contains a path separator, else keep the first
`max_len - 3` code points before an ellipsis.  The slices are Python
slices (`value[-(max_len - 3):]` and `value[:max_len - 3]`), embedded
with signed indices exactly as Python evaluates them. -/
def truncate (value : String) (max_len : Nat) : String :=
  if strLen value ≤ max_len then value
  else if strContains value '/' || strContains value '\\' then
    "..." ++ sliceFrom value (-((max_len : Int) - 3))
  else sliceTo value ((max_len : Int) - 3) ++ "..."

/-- `TOOL_DISPLAY_MAP`: tool name to (verb, key argument). -/
def TOOL_DISPLAY_MAP : List (String × String × Option String) :=
  [ ("read_file", ("Reading", some "path")),
    ("write_file", ("Writing", some "path")),
    ("edit_file", ("Editing", some "path")),
    ("list_dir", ("Listing", some "path")),
    ("exec", ("Running", some "command")),
    ("web_search", ("Searching", some "query")),
    ("web_fetch", ("Fetching", some "url")),
    ("message", ("Sending message", none)),
    ("spawn", ("Spawning subagent", some "label")),
    ("subagent_status", ("Checking subagents", some "action")),
    ("cron", ("Scheduling", some "action")) ]

/-- `format_tool_status(tool_name, arguments)`: look up verb and key
argument (falling back to the raw tool name with no key argument); when
the key argument is truthy and present, append its truncated value,
wrapped in backticks for `"command"` arguments. -/
def format_tool_status (tool_name : String) (arguments : ToolArgs) : String :=
  let vk := (dictGet TOOL_DISPLAY_MAP tool_name).getD (tool_name, none)
  let verb := vk.1
  match vk.2 with
  | some key_arg =>
      if key_arg ≠ "" then
        match dictGet arguments key_arg with
        | some v =>
            let arg_display := truncate v MAX_ARG_DISPLAY
            if key_arg = "command" then verb ++ " `" ++ arg_display ++ "`"
            else verb ++ " " ++ arg_display
        | none => verb
      else verb
  | none => verb

/-! ## Derived record views (`SubagentInfo` properties) -/

/-- `elapsed_seconds`: seconds from `started_at` to `ended_at`, or to
the current clock while still running. -/
def SubagentInfo.elapsed_seconds (info : SubagentInfo) (now : Nat) : Nat :=
  info.ended_at.getD now - info.started_at

/-- `display_status`: one-line human readable status.  Fractional-second
rendering (`:.1f`) of the integral logical clock is written `"N.0"`. -/
def SubagentInfo.display_status (info : SubagentInfo) (now : Nat) : String :=
  if info.status ≠ "running" then
    info.status ++ " (" ++ toString (info.elapsed_seconds now) ++ ".0s)"
  else if info.current_phase = "thinking" then
    "thinking (step " ++ toString info.iteration ++ "/" ++
      toString info.max_iterations ++ ")"
  else if info.current_phase = "tool_running" ∧ info.current_tool.getD "" ≠ "" then
    format_tool_status (info.current_tool.getD "") (info.current_tool_args.getD [])
      ++ " (step " ++ toString info.iteration ++ "/" ++
      toString info.max_iterations ++ ")"
  else
    info.current_phase ++ " (step " ++ toString info.iteration ++ "/" ++
      toString info.max_iterations ++ ")"

/-! ## Status query tool (`nanobot/agent/tools/subagent_status.py`) -/

namespace SubagentStatusTool

/-- `_list_running()`. -/
def list_running (tracker : SubagentTracker) (now : Nat) : String :=
  let agents := tracker.get_running
  if agents.isEmpty then "No subagents currently running."
  else
    let lines := agents.map (fun a =>
      "- [" ++ a.task_id ++ "] " ++ a.label ++ " | " ++ a.display_status now ++
        " | " ++ toString (a.elapsed_seconds now) ++ "s elapsed")
    toString agents.length ++ " running subagent(s):\n" ++
      String.intercalate "\n" lines

/-- `_detail(task_id)`. -/
def detail (tracker : SubagentTracker) (task_id : Option String) (now : Nat) :
    String :=
  if task_id.getD "" = "" then
    "Error: task_id is required for 'detail' action."
  else
    let tid := task_id.getD ""
    match tracker.get tid with
    | none => "No subagent found with ID '" ++ tid ++ "'."
    | some info =>
        let task_preview := strTake info.task 100 ++
          (if strLen info.task > 100 then "..." else "")
        let lines := [
          "Subagent [" ++ info.task_id ++ "]: " ++ info.label,
          "  Status: " ++ info.display_status now,
          "  Task: " ++ task_preview,
          "  Iteration: " ++ toString info.iteration ++ "/" ++
            toString info.max_iterations,
          "  Elapsed: " ++ toString (info.elapsed_seconds now) ++ ".0s",
          "  Tools used: " ++
            (if info.tools_used.isEmpty then "none"
             else String.intercalate ", " info.tools_used) ]
        let lines :=
          if info.current_tool.getD "" ≠ "" then
            lines ++ ["  Currently: " ++
              format_tool_status (info.current_tool.getD "")
                (info.current_tool_args.getD [])]
          else lines
        let lines :=
          if info.result_summary.getD "" ≠ "" then
            lines ++ ["  Result: " ++ info.result_summary.getD ""]
          else lines
        let lines :=
          if info.error_message.getD "" ≠ "" then
            lines ++ ["  Error: " ++ info.error_message.getD ""]
          else lines
        String.intercalate "\n" lines

/-- `_list_all()`. -/
def list_all (tracker : SubagentTracker) (now : Nat) : String :=
  let agents := tracker.get_all
  if agents.isEmpty then "No subagents tracked."
  else
    let running := agents.filter (fun a => a.status = "running")
    let completed := agents.filter (fun a => a.status ≠ "running")
    let lines₁ :=
      if ¬ running.isEmpty then
        ("Running (" ++ toString running.length ++ "):") ::
          running.map (fun a =>
            "  - [" ++ a.task_id ++ "] " ++ a.label ++ " | " ++
              a.display_status now)
      else []
    let lines₂ :=
      if ¬ completed.isEmpty then
        ("Completed (" ++ toString completed.length ++ "):") ::
          completed.map (fun a =>
            "  - [" ++ a.task_id ++ "] " ++ a.label ++ " | " ++
              (if a.status = "completed" then "ok" else "ERR") ++ " | " ++
              toString (a.elapsed_seconds now) ++ "s")
      else []
    String.intercalate "\n" (lines₁ ++ lines₂)

/-- `execute(action, task_id=None)`: total dispatch over the action
string; the string-in/string-out contract of the capability. -/
def execute (tracker : SubagentTracker) (action : String)
    (task_id : Option String) (now : Nat) : String :=
  if action = "list" then list_running tracker now
  else if action = "detail" then detail tracker task_id now
  else if action = "all" then list_all tracker now
  else "Unknown action: " ++ action

end SubagentStatusTool

/-! ## Runner loop (`SubagentManager._run_subagent`, subagent.py lines 253-390)

The LLM provider, the tool registry execution and the message bus are
external collaborators (`providers/base.py`, `tools/registry.py`,
`bus/queue.py` are outside the studied sources); they are modelled from
the spec as call-indexed result scripts and a published-message list. -/

/-- One tool call carried by a provider response (spec section 6). -/
structure ToolCall where
  id : String
  name : String
  arguments : ToolArgs
deriving Repr, DecidableEq

/-- Modelled from the spec: a provider response
`{content?, toolCalls[]}` (spec section 6; `providers/base.py` is not
among the studied sources). -/
structure LLMResponse where
  content : Option String
  tool_calls : List ToolCall
deriving Repr, DecidableEq

/-- Modelled from the spec: `has_tool_calls` is true iff `toolCalls` is
non-empty (spec section 6). -/
def LLMResponse.has_tool_calls (r : LLMResponse) : Bool := ¬ r.tool_calls.isEmpty

/-- A conversation entry (the `messages` list of `_run_subagent`). -/
inductive ChatMessage where
  | system (content : String)
  | user (content : String)
  | assistant (content : String) (tool_calls : List ToolCall)
  | toolResult (tool_call_id : String) (name : String) (content : String)
deriving Repr, DecidableEq

/-- Modelled from the spec: the external collaborators of one runner.
`chat i` is the outcome of the i-th provider call and `toolExec i` the
outcome of the i-th capability execution; `Except.error` is a raised
exception (provider or capability failure, spec sections 6-7).
`system_prompt` stands for the text built by `_build_subagent_prompt`
(wall-clock and workspace dependent rendering, irrelevant here). -/
structure RunnerEnv where
  chat : Nat → Except String LLMResponse
  toolExec : Nat → Except String String
  system_prompt : String

/-- Mutable state threaded through the runner loop. -/
structure LoopState where
  tracker : SubagentTracker
  messages : List ChatMessage
  chatCount : Nat
  toolCount : Nat

/-- The inner `for tool_call in response.tool_calls` loop (subagent.py
lines 323-338): each call first records the `tool_running` phase, then
executes; a raising execution aborts with the state mutated so far. -/
def execToolCalls (env : RunnerEnv) (task_id : String) (iteration : Nat) :
    List ToolCall → LoopState → LoopState × Except String Unit
  | [], st => (st, Except.ok ())
  | tc :: rest, st =>
    let tracker := st.tracker.update_phase task_id "tool_running"
      (some iteration) (some tc.name) (some tc.arguments)
    match env.toolExec st.toolCount with
    | Except.error e =>
        ({ st with tracker := tracker, toolCount := st.toolCount + 1 },
         Except.error e)
    | Except.ok result =>
        let st := { st with
          tracker := tracker
          toolCount := st.toolCount + 1
          messages := st.messages ++ [ChatMessage.toolResult tc.id tc.name result] }
        execToolCalls env task_id iteration rest st

/-- The `while iteration < max_iterations` loop (subagent.py lines
291-341), with `fuel = max_iterations - iteration` as the recursion
measure.  Returns `Except.ok final_result` on a normal exit
(`none` when the iteration bound ran out without a textual answer) and
`Except.error` for an escaped provider/capability exception; either way
the state mutated so far is returned. -/
def runLoopAux (env : RunnerEnv) (task_id : String) :
    Nat → Nat → LoopState → LoopState × Except String (Option String)
  | 0, _, st => (st, Except.ok none)
  | fuel + 1, iteration, st =>
    let iteration := iteration + 1
    let st := { st with
      tracker := st.tracker.update_phase task_id "thinking" (some iteration) none none }
    match env.chat st.chatCount with
    | Except.error e =>
        ({ st with chatCount := st.chatCount + 1 }, Except.error e)
    | Except.ok response =>
      let st := { st with chatCount := st.chatCount + 1 }
      if response.has_tool_calls then
        let st := { st with messages := st.messages ++
          [ChatMessage.assistant (response.content.getD "") response.tool_calls] }
        match execToolCalls env task_id iteration response.tool_calls st with
        | (st, Except.ok _) => runLoopAux env task_id fuel iteration st
        | (st, Except.error e) => (st, Except.error e)
      else
        (st, Except.ok response.content)

/-- The message published to the bus (`InboundMessage`, built by
`_announce_result`, subagent.py lines 360-390). -/
structure InboundMessage where
  channel : String
  sender_id : String
  chat_id : String
  content : String
deriving Repr, DecidableEq

/-- `_announce_result(task_id, label, task, result, origin, status)`:
the single outcome announcement. -/
def announce_result (label task result : String)
    (origin : List (String × String)) (status : String) : InboundMessage :=
  let status_text := if status = "ok" then "completed successfully" else "failed"
  { channel := "system"
    sender_id := "subagent"
    chat_id := (dictGet origin "channel").getD "" ++ ":" ++
      (dictGet origin "chat_id").getD ""
    content := "[Subagent '" ++ label ++ "' " ++ status_text ++ "]\n\nTask: " ++
      task ++ "\n\nResult:\n" ++ result ++
      "\n\nSummarize this naturally for the user. Keep it brief (1-2 sentences). Do not mention technical details like \"subagent\" or task IDs." }

/-- The loop state at entry of `_run_subagent` (system preamble plus the
task as the initial conversation, subagent.py lines 280-284). -/
def initLoopState (t : SubagentTracker) (system_prompt task : String) : LoopState :=
  { tracker := t
    messages := [ChatMessage.system system_prompt, ChatMessage.user task]
    chatCount := 0
    toolCount := 0 }

/-- `_run_subagent(task_id, task, label, origin)`: run the loop, then
funnel every exit path through exactly one `mark_completed` and exactly
one announcement: a normal exit (textual answer, or the placeholder when
the iteration cap ran out) completes with the summary truncated to 200
code points; a caught exception completes with status `"error"` and the
truncated message.  Returns the final tracker and the list of messages
published to the bus.  `now` is the completion-time clock value. -/
def run_subagent (env : RunnerEnv) (t : SubagentTracker)
    (task_id task label : String) (origin : List (String × String))
    (now : Nat) : SubagentTracker × List InboundMessage :=
  match runLoopAux env task_id 15 0 (initLoopState t env.system_prompt task) with
  | (st, Except.ok finalOpt) =>
    let final_result :=
      match finalOpt with
      | some s => s
      | none => "Task completed but no final response was generated."
    let tracker := st.tracker.mark_completed task_id "completed"
      (some (strTake final_result 200)) none now
    (tracker, [announce_result label task final_result origin "ok"])
  | (st, Except.error e) =>
    let tracker := st.tracker.mark_completed task_id "error"
      none (some (strTake e 200)) now
    (tracker, [announce_result label task ("Error: " ++ e) origin "error"])

/-- The completion boundary of `_run_subagent` in isolation (subagent.py
lines 343-358): the only two `mark_completed` call shapes the runner
loop ever issues. -/
def runnerMarkCompleted (t : SubagentTracker) (task_id : String)
    (outcome : Except String String) (now : Nat) : SubagentTracker :=
  match outcome with
  | Except.ok final_result =>
      t.mark_completed task_id "completed" (some (strTake final_result 200)) none now
  | Except.error e =>
      t.mark_completed task_id "error" none (some (strTake e 200)) now

/-! ## Reachable tracker operations

`SubagentManager` drives the tracker through exactly four call shapes:
`register` of a freshly spawned record (spawn, subagent.py lines
233-239: all lifecycle fields at their dataclass defaults),
`update_phase(id, "thinking", iteration=i)` (line 293),
`update_phase(id, "tool_running", iteration=i, tool_name=.., tool_args=..)`
(lines 324-329) and `mark_completed` (lines 346-347 and 354-355). -/

/-- One manager-issued tracker call. -/
inductive TrackerOp where
  | spawnRegister (task_id task label : String)
      (origin : List (String × String)) (now : Nat)
  | thinkingPhase (task_id : String) (iteration : Nat)
  | toolPhase (task_id : String) (iteration : Nat) (name : String) (args : ToolArgs)
  | complete (task_id status : String)
      (result_summary error_message : Option String) (now : Nat)

/-- Apply one manager-issued call to the tracker. -/
def applyOp (t : SubagentTracker) : TrackerOp → SubagentTracker
  | TrackerOp.spawnRegister tid task label origin now =>
      t.register { task_id := tid, task := task, label := label,
                   origin := origin, started_at := now }
  | TrackerOp.thinkingPhase tid i =>
      t.update_phase tid "thinking" (some i) none none
  | TrackerOp.toolPhase tid i n a =>
      t.update_phase tid "tool_running" (some i) (some n) (some a)
  | TrackerOp.complete tid st rs em now =>
      t.mark_completed tid st rs em now

/-- A fresh tracker with retention bound `k` (`SubagentTracker(k)`). -/
def initTracker (k : Nat) : SubagentTracker :=
  { agents := [], max_completed := k }

/-- Apply a whole history of manager-issued calls. -/
def runOps (k : Nat) (ops : List TrackerOp) : SubagentTracker :=
  ops.foldl applyOp (initTracker k)

/-- The current-tool field consistency invariant of one record. -/
def toolInv (r : SubagentInfo) : Prop :=
  (r.current_phase = "tool_running" →
    r.current_tool.isSome ∧ r.current_tool_args.isSome) ∧
  (r.current_phase ≠ "tool_running" →
    r.current_tool = none ∧ r.current_tool_args = none)

/-- The invariant over every record held by a tracker. -/
def trackerToolInv (t : SubagentTracker) : Prop :=
  ∀ p ∈ t.agents, toolInv p.2

/-- A sequence of `update_phase(id, "tool_running", tool_name=t)` calls,
one per listed name (no iteration, no arguments — the exact call shape
of the claim). -/
def runToolSeq (t : SubagentTracker) (task_id : String) (ts : List String) :
    SubagentTracker :=
  ts.foldl (fun tr n => tr.update_phase task_id "tool_running" none (some n) none) t

/-! ## Concrete inputs for counterexamples and witnesses -/

/-- A minimal freshly spawned record, as the unit tests build them. -/
def testInfo (tid : String) (st : Nat) : SubagentInfo :=
  { task_id := tid, task := "t", label := "l", origin := [], started_at := st }

/-- Registered first, started at 10, completed at 100. -/
def c2recA : SubagentInfo :=
  { testInfo "a" 10 with
    status := "completed"
    current_phase := "done"
    ended_at := some 100 }

/-- Registered second, started at 5 (older than `c2recA`), also
completed at 100 — an `ended_at` tie. -/
def c2recB : SubagentInfo :=
  { testInfo "b" 5 with
    status := "completed"
    current_phase := "done"
    ended_at := some 100 }

/-- Two completed records over a retention bound of 1: the pruning
policy must evict exactly one of them. -/
def c2pre : SubagentTracker :=
  { agents := [("a", c2recA), ("b", c2recB)], max_completed := 1 }

/-- A 201-code-point summary, longer than the 200-unit preview bound. -/
def c3long : String := String.mk (List.replicate 201 'x')

/-- `mark_completed` applied with the over-long summary. -/
def c3ex : SubagentTracker :=
  ((initTracker 20).register (testInfo "a1" 0)).mark_completed
    "a1" "completed" (some c3long) none 1

/-- A record driven into `tool_running` and then to phase `"done"`
through `update_phase` (not through `mark_completed`). -/
def c4ex : SubagentTracker :=
  (((initTracker 20).register (testInfo "a1" 0)).update_phase
      "a1" "tool_running" (some 1) (some "exec") (some [("command", "ls")])).update_phase
    "a1" "done" none none none

/-- `update_phase(id, "ToolRunning", toolName="")`: the empty (falsy)
tool name. -/
def c5ex : SubagentTracker :=
  ((initTracker 20).register (testInfo "a1" 0)).update_phase
    "a1" "tool_running" none (some "") none

/-- A one-record tracker used by several witnesses. -/
def wTracker : SubagentTracker := (initTracker 20).register (testInfo "a1" 0)

/-- A runner environment whose provider immediately returns a textual
answer. -/
def wEnvOk : RunnerEnv :=
  { chat := fun _ => Except.ok { content := some "all done", tool_calls := [] }
    toolExec := fun _ => Except.ok "ok"
    system_prompt := "prompt" }

/-- A runner environment whose provider raises on the first call. -/
def wEnvErr : RunnerEnv :=
  { chat := fun _ => Except.error "boom"
    toolExec := fun _ => Except.ok "ok"
    system_prompt := "prompt" }

/-- A 70-code-point path-like value (contains a separator). -/
def wLongPath : String := "/" ++ String.mk (List.replicate 61 'a') ++ "/tail.py"

/-- A 70-code-point value without a separator. -/
def wLongFlat : String := String.mk (List.replicate 70 'b')

/-- What a runner-loop step leaves intact of the tracker, seen from
runner `id`: the retention bound, the key sequence, every other entry,
and the presence and status of its own entry. -/
def preservesTracker (id : String) (t t' : SubagentTracker) : Prop :=
  t'.max_completed = t.max_completed ∧
  t'.agents.map Prod.fst = t.agents.map Prod.fst ∧
  (∀ k, k ≠ id → dictGet t'.agents k = dictGet t.agents k) ∧
  (∀ r, dictGet t.agents id = some r →
    ∃ r', dictGet t'.agents id = some r' ∧ r'.status = r.status)

/-! ## Dictionary lemmas -/

theorem dictGet_mem {α : Type} {m : List (String × α)} {k : String} {v : α}
    (h : dictGet m k = some v) : (k, v) ∈ m := by
  induction m with
  | nil => simp [dictGet] at h
  | cons x rest ih =>
    obtain ⟨k', v'⟩ := x
    by_cases hk : k' = k
    · subst hk
      simp [dictGet] at h
      simp [h]
    · simp only [dictGet, if_neg hk] at h
      exact List.mem_cons_of_mem _ (ih h)

theorem mem_dictGet {α : Type} {m : List (String × α)}
    (hnd : (m.map Prod.fst).Nodup) {k : String} {v : α}
    (h : (k, v) ∈ m) : dictGet m k = some v := by
  induction m with
  | nil => simp at h
  | cons x rest ih =>
    obtain ⟨k', v'⟩ := x
    simp only [List.map_cons, List.nodup_cons] at hnd
    rcases List.mem_cons.mp h with heq | hmem
    · cases heq
      simp [dictGet]
    · by_cases hk : k' = k
      · subst hk
        exact absurd (List.mem_map_of_mem Prod.fst hmem) hnd.1
      · simp only [dictGet, if_neg hk]
        exact ih hnd.2 hmem

theorem keyUnique {α : Type} {m : List (String × α)}
    (hnd : (m.map Prod.fst).Nodup) {p q : String × α}
    (hp : p ∈ m) (hq : q ∈ m) (hk : p.1 = q.1) : p = q := by
  induction m with
  | nil => simp at hp
  | cons x rest ih =>
    simp only [List.map_cons, List.nodup_cons] at hnd
    rcases List.mem_cons.mp hp with hp' | hp' <;>
      rcases List.mem_cons.mp hq with hq' | hq'
    · rw [hp', hq']
    · exfalso
      apply hnd.1
      rw [← hp', hk]
      exact List.mem_map_of_mem Prod.fst hq'
    · exfalso
      apply hnd.1
      rw [← hq', ← hk]
      exact List.mem_map_of_mem Prod.fst hp'
    · exact ih hnd.2 hp' hq'

theorem dictGet_dictSet_self {α : Type} (m : List (String × α)) (k : String)
    (v : α) : dictGet (dictSet m k v) k = some v := by
  induction m with
  | nil => simp [dictSet, dictGet]
  | cons x rest ih =>
    obtain ⟨k', v'⟩ := x
    by_cases hk : k' = k
    · simp [dictSet, hk, dictGet]
    · simp only [dictSet, if_neg hk, dictGet]
      simp [if_neg hk, ih]

theorem dictGet_dictSet_ne {α : Type} (m : List (String × α)) {k k' : String}
    (v : α) (h : k' ≠ k) : dictGet (dictSet m k v) k' = dictGet m k' := by
  induction m with
  | nil => simp [dictSet, dictGet, Ne.symm h]
  | cons x rest ih =>
    obtain ⟨k₀, v₀⟩ := x
    by_cases hk : k₀ = k
    · subst hk
      simp [dictSet, dictGet, Ne.symm h]
    · simp only [dictSet, if_neg hk, dictGet]
      by_cases hk' : k₀ = k'
      · simp [hk']
      · simp [if_neg hk', ih]

theorem dictSet_map_fst {α : Type} {m : List (String × α)} {k : String} {w : α}
    (h : dictGet m k = some w) (v : α) :
    (dictSet m k v).map Prod.fst = m.map Prod.fst := by
  induction m with
  | nil => simp [dictGet] at h
  | cons x rest ih =>
    obtain ⟨k', v'⟩ := x
    by_cases hk : k' = k
    · subst hk
      simp [dictSet]
    · simp only [dictGet, if_neg hk] at h
      simp [dictSet, if_neg hk, ih h]

theorem mem_dictSet {α : Type} {m : List (String × α)} {k : String} {v : α}
    {p : String × α} (h : p ∈ dictSet m k v) : p = (k, v) ∨ p ∈ m := by
  induction m with
  | nil =>
    simp [dictSet] at h
    exact Or.inl h
  | cons x rest ih =>
    obtain ⟨k', v'⟩ := x
    by_cases hk : k' = k
    · subst hk
      simp only [dictSet, if_pos rfl] at h
      rcases List.mem_cons.mp h with h' | h'
      · exact Or.inl h'
      · exact Or.inr (List.mem_cons_of_mem _ h')
    · simp only [dictSet, if_neg hk] at h
      rcases List.mem_cons.mp h with h' | h'
      · exact Or.inr (h' ▸ List.mem_cons_self _ _)
      · rcases ih h' with h'' | h''
        · exact Or.inl h''
        · exact Or.inr (List.mem_cons_of_mem _ h'')

theorem dictGet_dropKeys_of_mem {α : Type} {m : List (String × α)}
    {ks : List String} {k : String} (h : k ∈ ks) :
    dictGet (dictDropKeys m ks) k = none := by
  induction m with
  | nil => simp [dictDropKeys, dictGet]
  | cons x rest ih =>
    obtain ⟨k', v'⟩ := x
    by_cases hc : k' ∈ ks
    · simpa [dictDropKeys, List.filter_cons, hc] using ih
    · have hkk : k' ≠ k := fun he => hc (he ▸ h)
      simpa [dictDropKeys, List.filter_cons, hc, dictGet, hkk] using ih

theorem dictGet_dropKeys_of_not_mem {α : Type} {m : List (String × α)}
    {ks : List String} {k : String} (h : k ∉ ks) :
    dictGet (dictDropKeys m ks) k = dictGet m k := by
  induction m with
  | nil => simp [dictDropKeys, dictGet]
  | cons x rest ih =>
    obtain ⟨k', v'⟩ := x
    by_cases hc : k' ∈ ks
    · have hkk : k' ≠ k := fun he => h (he ▸ hc)
      simpa [dictDropKeys, List.filter_cons, hc, dictGet, hkk] using ih
    · by_cases hk : k' = k
      · simp [dictDropKeys, List.filter_cons, hc, dictGet, hk, h]
      · simpa [dictDropKeys, List.filter_cons, hc, dictGet, hk] using ih

/-! ## Pruning lemmas -/

theorem pairwise_take_drop {α : Type} {R : α → α → Prop} {l : List α}
    (h : l.Pairwise R) (n : Nat) :
    ∀ x ∈ l.take n, ∀ y ∈ l.drop n, R x y := by
  have h2 : (l.take n ++ l.drop n).Pairwise R := by
    rw [List.take_append_drop]
    exact h
  exact (List.pairwise_append.mp h2).2.2

theorem pruneLE_trans {a b c : String × SubagentInfo}
    (hab : SubagentTracker.pruneLE a b = true)
    (hbc : SubagentTracker.pruneLE b c = true) :
    SubagentTracker.pruneLE a c = true := by
  simp only [SubagentTracker.pruneLE, decide_eq_true_eq] at *
  omega

theorem pruneLE_of_not {a b : String × SubagentInfo}
    (h : ¬ SubagentTracker.pruneLE a b = true) :
    SubagentTracker.pruneLE b a = true := by
  simp only [SubagentTracker.pruneLE, decide_eq_true_eq] at *
  omega

theorem insertSorted_perm (a : String × SubagentInfo)
    (l : List (String × SubagentInfo)) :
    List.Perm (SubagentTracker.insertSorted a l) (a :: l) := by
  induction l with
  | nil => exact List.Perm.refl _
  | cons b l ih =>
    unfold SubagentTracker.insertSorted
    split
    · exact List.Perm.refl _
    · exact (ih.cons b).trans (List.Perm.swap a b l)

theorem stableSortByKey_perm (l : List (String × SubagentInfo)) :
    List.Perm (SubagentTracker.stableSortByKey l) l := by
  induction l with
  | nil => exact List.Perm.refl _
  | cons x xs ih =>
    exact (insertSorted_perm x _).trans (ih.cons x)

theorem insertSorted_pairwise {l : List (String × SubagentInfo)}
    (h : l.Pairwise (fun a b => SubagentTracker.pruneLE a b = true))
    (a : String × SubagentInfo) :
    (SubagentTracker.insertSorted a l).Pairwise
      (fun a b => SubagentTracker.pruneLE a b = true) := by
  induction l with
  | nil => simp [SubagentTracker.insertSorted]
  | cons b l ih =>
    rcases List.pairwise_cons.mp h with ⟨hb, hl⟩
    unfold SubagentTracker.insertSorted
    by_cases hab : SubagentTracker.pruneLE a b = true
    · rw [if_pos hab]
      refine List.Pairwise.cons ?_ h
      intro x hx
      rcases List.mem_cons.mp hx with he | hx
      · rw [he]
        exact hab
      · exact pruneLE_trans hab (hb x hx)
    · rw [if_neg hab]
      refine List.Pairwise.cons ?_ (ih hl)
      intro x hx
      rcases List.mem_cons.mp ((insertSorted_perm a l).mem_iff.mp hx)
        with he | hx'
      · rw [he]
        exact pruneLE_of_not hab
      · exact hb x hx'

theorem stableSortByKey_pairwise (l : List (String × SubagentInfo)) :
    (SubagentTracker.stableSortByKey l).Pairwise
      (fun a b => SubagentTracker.pruneLE a b = true) := by
  induction l with
  | nil => simp [SubagentTracker.stableSortByKey]
  | cons x xs ih => exact insertSorted_pairwise ih x

theorem sortedCompleted_perm (t : SubagentTracker) :
    List.Perm (SubagentTracker.sortedCompleted t)
      (SubagentTracker.completedEntries t) :=
  stableSortByKey_perm _

theorem sortedCompleted_pairwise (t : SubagentTracker) :
    (SubagentTracker.sortedCompleted t).Pairwise
      (fun a b => SubagentTracker.pruneLE a b = true) :=
  stableSortByKey_pairwise _

theorem mem_completedEntries {t : SubagentTracker} {p : String × SubagentInfo} :
    p ∈ SubagentTracker.completedEntries t ↔
      p ∈ t.agents ∧ p.2.status ≠ "running" := by
  simp [SubagentTracker.completedEntries, List.mem_filter]

theorem completed_keys_nodup {t : SubagentTracker}
    (hnd : (t.agents.map Prod.fst).Nodup) :
    ((SubagentTracker.completedEntries t).map Prod.fst).Nodup :=
  List.Nodup.sublist (List.Sublist.map Prod.fst (List.filter_sublist _)) hnd

theorem sorted_keys_nodup {t : SubagentTracker}
    (hnd : (t.agents.map Prod.fst).Nodup) :
    ((SubagentTracker.sortedCompleted t).map Prod.fst).Nodup :=
  (List.Perm.nodup_iff ((sortedCompleted_perm t).map Prod.fst)).mpr
    (completed_keys_nodup hnd)

theorem take_drop_same_key {t : SubagentTracker}
    (hnd : (t.agents.map Prod.fst).Nodup) {n : Nat} {q y : String × SubagentInfo}
    (hq : q ∈ (SubagentTracker.sortedCompleted t).take n)
    (hy : y ∈ (SubagentTracker.sortedCompleted t).drop n)
    (hk : q.1 = y.1) : False := by
  have hknd := sorted_keys_nodup hnd
  have heq : q = y :=
    keyUnique hknd (List.mem_of_mem_take hq) (List.mem_of_mem_drop hy) hk
  subst heq
  have hnds : (SubagentTracker.sortedCompleted t).Nodup := hknd.of_map
  have happ : ((SubagentTracker.sortedCompleted t).take n ++
      (SubagentTracker.sortedCompleted t).drop n).Nodup := by
    rw [List.take_append_drop]
    exact hnds
  exact (List.nodup_append.mp happ).2.2 hq hy

theorem not_mem_doomedKeys_of_running {t : SubagentTracker}
    (hnd : (t.agents.map Prod.fst).Nodup) {p : String × SubagentInfo}
    (hp : p ∈ t.agents) (hrun : p.2.status = "running") :
    p.1 ∉ SubagentTracker.doomedKeys t := by
  intro hmem
  obtain ⟨e, hetake, he1⟩ := List.mem_map.mp hmem
  have hemem : e ∈ SubagentTracker.completedEntries t :=
    (sortedCompleted_perm t).mem_iff.mp (List.mem_of_mem_take hetake)
  obtain ⟨heag, henr⟩ := mem_completedEntries.mp hemem
  have : e = p := keyUnique hnd heag hp he1
  rw [this] at henr
  exact henr hrun

theorem prune_get_of_mem_keep {t : SubagentTracker}
    (hnd : (t.agents.map Prod.fst).Nodup) {p : String × SubagentInfo}
    (hp : p ∈ t.agents) (hnm : p.1 ∉ SubagentTracker.doomedKeys t) :
    (t.prune_completed).get p.1 = some p.2 := by
  unfold SubagentTracker.prune_completed
  split
  · show dictGet (dictDropKeys t.agents (SubagentTracker.doomedKeys t)) p.1 = _
    rw [dictGet_dropKeys_of_not_mem hnm]
    exact mem_dictGet hnd hp
  · exact mem_dictGet hnd hp

theorem prune_get_of_mem_doomed {t : SubagentTracker} {k : String}
    (hk : k ∈ SubagentTracker.doomedKeys t)
    (hgt : (SubagentTracker.completedEntries t).length > t.max_completed) :
    (t.prune_completed).get k = none := by
  unfold SubagentTracker.prune_completed
  rw [if_pos hgt]
  exact dictGet_dropKeys_of_mem hk

theorem prune_get_of_running {t : SubagentTracker}
    (hnd : (t.agents.map Prod.fst).Nodup) {p : String × SubagentInfo}
    (hp : p ∈ t.agents) (hrun : p.2.status = "running") :
    (t.prune_completed).get p.1 = some p.2 :=
  prune_get_of_mem_keep hnd hp (not_mem_doomedKeys_of_running hnd hp hrun)

theorem mem_take_of_mem_doomedKeys {t : SubagentTracker}
    (hnd : (t.agents.map Prod.fst).Nodup) {p : String × SubagentInfo}
    (hp : p ∈ t.agents) (hmem : p.1 ∈ SubagentTracker.doomedKeys t) :
    p ∈ (SubagentTracker.sortedCompleted t).take
      ((SubagentTracker.completedEntries t).length - t.max_completed) := by
  obtain ⟨e, hetake, he1⟩ := List.mem_map.mp hmem
  have hemem : e ∈ SubagentTracker.completedEntries t :=
    (sortedCompleted_perm t).mem_iff.mp (List.mem_of_mem_take hetake)
  have : e = p := keyUnique hnd (mem_completedEntries.mp hemem).1 hp he1
  exact this ▸ hetake

theorem prune_evict_oldest {t : SubagentTracker}
    (hnd : (t.agents.map Prod.fst).Nodup) {p q : String × SubagentInfo}
    (hp : p ∈ t.agents)
    (hpdel : (t.prune_completed).get p.1 = none)
    (hq : q ∈ t.agents) (hqnr : q.2.status ≠ "running")
    (hqkeep : (t.prune_completed).get q.1 = some q.2) :
    SubagentTracker.sortKey p.2 ≤ SubagentTracker.sortKey q.2 := by
  by_cases hgt : (SubagentTracker.completedEntries t).length > t.max_completed
  · have hpdoom : p.1 ∈ SubagentTracker.doomedKeys t := by
      by_contra hnm
      rw [prune_get_of_mem_keep hnd hp hnm] at hpdel
      exact Option.noConfusion hpdel
    have hptake := mem_take_of_mem_doomedKeys hnd hp hpdoom
    have hqsorted : q ∈ SubagentTracker.sortedCompleted t :=
      (sortedCompleted_perm t).mem_iff.mpr (mem_completedEntries.mpr ⟨hq, hqnr⟩)
    have hqapp : q ∈ (SubagentTracker.sortedCompleted t).take
          ((SubagentTracker.completedEntries t).length - t.max_completed) ++
        (SubagentTracker.sortedCompleted t).drop
          ((SubagentTracker.completedEntries t).length - t.max_completed) := by
      rw [List.take_append_drop]
      exact hqsorted
    rcases List.mem_append.mp hqapp with hqtake | hqdrop
    · exfalso
      have : q.1 ∈ SubagentTracker.doomedKeys t :=
        List.mem_map_of_mem (fun x => x.1) hqtake
      rw [prune_get_of_mem_doomed this hgt] at hqkeep
      exact Option.noConfusion hqkeep
    · have := pairwise_take_drop (sortedCompleted_pairwise t) _ p hptake q hqdrop
      simpa [SubagentTracker.pruneLE] using this
  · exfalso
    have : (t.prune_completed).get p.1 = some p.2 := by
      unfold SubagentTracker.prune_completed
      rw [if_neg hgt]
      exact mem_dictGet hnd hp
    rw [this] at hpdel
    exact Option.noConfusion hpdel

theorem prune_count {t : SubagentTracker}
    (hnd : (t.agents.map Prod.fst).Nodup)
    (hgt : (SubagentTracker.completedEntries t).length > t.max_completed) :
    SubagentTracker.nonRunningCount t.prune_completed = t.max_completed := by
  have hn : SubagentTracker.nonRunningCount t.prune_completed =
      ((SubagentTracker.completedEntries t).filter
        (fun p => p.1 ∉ SubagentTracker.doomedKeys t)).length := by
    unfold SubagentTracker.nonRunningCount SubagentTracker.prune_completed
    rw [if_pos hgt]
    show ((dictDropKeys t.agents (SubagentTracker.doomedKeys t)).filter
      (fun p => p.2.status ≠ "running")).length = _
    unfold dictDropKeys SubagentTracker.completedEntries
    rw [List.filter_filter, List.filter_filter]
    congr 1
    apply List.filter_congr
    intro a _
    rw [Bool.and_comm]
  rw [hn]
  have hperm :
      List.Perm
        ((SubagentTracker.sortedCompleted t).filter
          (fun p => p.1 ∉ SubagentTracker.doomedKeys t))
        ((SubagentTracker.completedEntries t).filter
          (fun p => p.1 ∉ SubagentTracker.doomedKeys t)) :=
    (sortedCompleted_perm t).filter _
  rw [← hperm.length_eq]
  have hsplit : (SubagentTracker.sortedCompleted t).filter
        (fun p => p.1 ∉ SubagentTracker.doomedKeys t) =
      ((SubagentTracker.sortedCompleted t).take
          ((SubagentTracker.completedEntries t).length - t.max_completed)).filter
        (fun p => p.1 ∉ SubagentTracker.doomedKeys t) ++
      ((SubagentTracker.sortedCompleted t).drop
          ((SubagentTracker.completedEntries t).length - t.max_completed)).filter
        (fun p => p.1 ∉ SubagentTracker.doomedKeys t) := by
    rw [← List.filter_append, List.take_append_drop]
  have htake : ((SubagentTracker.sortedCompleted t).take
        ((SubagentTracker.completedEntries t).length - t.max_completed)).filter
      (fun p => p.1 ∉ SubagentTracker.doomedKeys t) = [] := by
    apply List.filter_eq_nil_iff.mpr
    intro a ha
    simp only [decide_not]
    have : a.1 ∈ SubagentTracker.doomedKeys t :=
      List.mem_map_of_mem (fun x => x.1) ha
    simp [this]
  have hdrop : ((SubagentTracker.sortedCompleted t).drop
        ((SubagentTracker.completedEntries t).length - t.max_completed)).filter
      (fun p => p.1 ∉ SubagentTracker.doomedKeys t) =
      (SubagentTracker.sortedCompleted t).drop
        ((SubagentTracker.completedEntries t).length - t.max_completed) := by
    apply List.filter_eq_self.mpr
    intro a ha
    have hnm : a.1 ∉ SubagentTracker.doomedKeys t := by
      intro hmem
      obtain ⟨e, hetake, he1⟩ := List.mem_map.mp hmem
      exact take_drop_same_key hnd hetake ha he1
    simp [hnm]
  rw [hsplit, htake, hdrop]
  have hlen : (SubagentTracker.sortedCompleted t).length =
      (SubagentTracker.completedEntries t).length :=
    (sortedCompleted_perm t).length_eq
  simp only [List.nil_append, List.length_drop, hlen]
  omega

theorem prune_get_newest {t : SubagentTracker}
    (hnd : (t.agents.map Prod.fst).Nodup) {p : String × SubagentInfo}
    (hp : p ∈ t.agents) (hmax : 1 ≤ t.max_completed)
    (hdom : ∀ q ∈ t.agents, q.1 ≠ p.1 → q.2.status ≠ "running" →
      SubagentTracker.sortKey q.2 < SubagentTracker.sortKey p.2) :
    (t.prune_completed).get p.1 = some p.2 := by
  apply prune_get_of_mem_keep hnd hp
  intro hmem
  have hptake := mem_take_of_mem_doomedKeys hnd hp hmem
  by_cases hgt : (SubagentTracker.completedEntries t).length > t.max_completed
  · have hlen : (SubagentTracker.sortedCompleted t).length =
        (SubagentTracker.completedEntries t).length :=
      (sortedCompleted_perm t).length_eq
    have hdroplen : 0 < ((SubagentTracker.sortedCompleted t).drop
        ((SubagentTracker.completedEntries t).length - t.max_completed)).length := by
      rw [List.length_drop, hlen]
      omega
    obtain ⟨y, hy⟩ := List.exists_mem_of_length_pos hdroplen
    have hle := pairwise_take_drop (sortedCompleted_pairwise t) _ p hptake y hy
    have hple : SubagentTracker.sortKey p.2 ≤ SubagentTracker.sortKey y.2 := by
      simpa [SubagentTracker.pruneLE] using hle
    have hymem : y ∈ SubagentTracker.completedEntries t :=
      (sortedCompleted_perm t).mem_iff.mp (List.mem_of_mem_drop hy)
    obtain ⟨hyag, hynr⟩ := mem_completedEntries.mp hymem
    have hy1 : y.1 ≠ p.1 := by
      intro he
      exact take_drop_same_key hnd hptake hy he.symm
    have := hdom y hyag hy1 hynr
    omega
  · have : (SubagentTracker.completedEntries t).length - t.max_completed = 0 := by
      omega
    rw [this, List.take_zero] at hptake
    exact List.not_mem_nil p hptake

theorem get_mark_completed_self {t : SubagentTracker} {id status : String}
    {r : SubagentInfo} {rs em : Option String} {now : Nat}
    (hnd : (t.agents.map Prod.fst).Nodup)
    (hr : t.get id = some r)
    (hmax : 1 ≤ t.max_completed)
    (hold : ∀ p ∈ t.agents, p.1 ≠ id → p.2.status ≠ "running" →
      SubagentTracker.sortKey p.2 < now) :
    (t.mark_completed id status rs em now).get id =
      some (SubagentTracker.completeInfo r status rs em now) := by
  have hr' : dictGet t.agents id = some r := hr
  unfold SubagentTracker.mark_completed
  rw [hr']
  have hkey : SubagentTracker.sortKey
      (SubagentTracker.completeInfo r status rs em now) = now := rfl
  apply prune_get_newest (t := { t with agents := dictSet t.agents id (SubagentTracker.completeInfo r status rs em now) }) (p := (id, SubagentTracker.completeInfo r status rs em now))
  · show ((dictSet t.agents id _).map Prod.fst).Nodup
    rw [dictSet_map_fst hr']
    exact hnd
  · exact dictGet_mem (dictGet_dictSet_self _ _ _)
  · exact hmax
  · intro q hq hq1 hqnr
    rcases mem_dictSet hq with he | hqmem
    · exact absurd (congrArg Prod.fst he) hq1
    · rw [hkey]
      exact hold q hqmem hq1 hqnr

/-! ## `update_phase` and `phaseInfo` lemmas -/

theorem phaseInfo_frame (i : SubagentInfo) (ph : String) (it : Option Nat)
    (tn : Option String) (ta : Option ToolArgs) :
    (SubagentTracker.phaseInfo i ph it tn ta).task_id = i.task_id ∧
    (SubagentTracker.phaseInfo i ph it tn ta).task = i.task ∧
    (SubagentTracker.phaseInfo i ph it tn ta).label = i.label ∧
    (SubagentTracker.phaseInfo i ph it tn ta).origin = i.origin ∧
    (SubagentTracker.phaseInfo i ph it tn ta).status = i.status ∧
    (SubagentTracker.phaseInfo i ph it tn ta).max_iterations = i.max_iterations ∧
    (SubagentTracker.phaseInfo i ph it tn ta).started_at = i.started_at ∧
    (SubagentTracker.phaseInfo i ph it tn ta).ended_at = i.ended_at ∧
    (SubagentTracker.phaseInfo i ph it tn ta).result_summary = i.result_summary ∧
    (SubagentTracker.phaseInfo i ph it tn ta).error_message = i.error_message := by
  unfold SubagentTracker.phaseInfo
  cases it <;> cases tn <;> by_cases h : ph = "tool_running" <;>
    simp [h] <;> split <;> simp

theorem phaseInfo_thinking (i : SubagentInfo) (it : Option Nat) :
    (SubagentTracker.phaseInfo i "thinking" it none none).current_phase =
        "thinking" ∧
      (SubagentTracker.phaseInfo i "thinking" it none none).current_tool = none ∧
      (SubagentTracker.phaseInfo i "thinking" it none none).current_tool_args =
        none := by
  unfold SubagentTracker.phaseInfo
  cases it <;> simp

theorem phaseInfo_toolRunning (i : SubagentInfo) (it : Option Nat) (n : String)
    (ta : Option ToolArgs) :
    (SubagentTracker.phaseInfo i "tool_running" it (some n) ta).current_phase =
        "tool_running" ∧
      (SubagentTracker.phaseInfo i "tool_running" it (some n) ta).current_tool =
        some n ∧
      (SubagentTracker.phaseInfo i "tool_running" it (some n) ta).current_tool_args =
        ta := by
  unfold SubagentTracker.phaseInfo
  cases it <;> by_cases h : n = "" <;> simp [h]

theorem phaseInfo_toolRunning_tools (i : SubagentInfo) (it : Option Nat)
    (n : String) (ta : Option ToolArgs) :
    (SubagentTracker.phaseInfo i "tool_running" it (some n) ta).tools_used =
      if n ≠ "" then i.tools_used ++ [n] else i.tools_used := by
  unfold SubagentTracker.phaseInfo
  cases it <;> by_cases h : n = "" <;> simp [h]

theorem update_phase_get_self {t : SubagentTracker} {id : String}
    {r : SubagentInfo} (ph : String) (it : Option Nat) (tn : Option String)
    (ta : Option ToolArgs) (hr : t.get id = some r) :
    (t.update_phase id ph it tn ta).get id =
      some (SubagentTracker.phaseInfo r ph it tn ta) := by
  have hr' : dictGet t.agents id = some r := hr
  unfold SubagentTracker.update_phase
  rw [hr']
  exact dictGet_dictSet_self _ _ _

theorem update_phase_get_ne {t : SubagentTracker} {id k : String}
    (ph : String) (it : Option Nat) (tn : Option String) (ta : Option ToolArgs)
    (hk : k ≠ id) :
    (t.update_phase id ph it tn ta).get k = t.get k := by
  unfold SubagentTracker.update_phase
  cases h : dictGet t.agents id with
  | none => rfl
  | some r => exact dictGet_dictSet_ne _ _ hk

theorem update_phase_none {t : SubagentTracker} {id : String}
    (ph : String) (it : Option Nat) (tn : Option String) (ta : Option ToolArgs)
    (h : t.get id = none) :
    t.update_phase id ph it tn ta = t := by
  have h' : dictGet t.agents id = none := h
  unfold SubagentTracker.update_phase
  rw [h']

theorem mark_completed_none {t : SubagentTracker} {id : String}
    (st : String) (rs em : Option String) (now : Nat)
    (h : t.get id = none) :
    t.mark_completed id st rs em now = t := by
  have h' : dictGet t.agents id = none := h
  unfold SubagentTracker.mark_completed
  rw [h']

/-! ## Tool-field invariant preservation (for the reachable operations) -/

theorem toolInv_fresh (tid task label : String) (origin : List (String × String))
    (now : Nat) :
    toolInv { task_id := tid, task := task, label := label,
              origin := origin, started_at := now } := by
  have hne : ("starting" : String) ≠ "tool_running" := by decide
  exact ⟨fun h => absurd h hne, fun _ => ⟨rfl, rfl⟩⟩

theorem toolInv_completeInfo (i : SubagentInfo) (st : String)
    (rs em : Option String) (now : Nat) :
    toolInv (SubagentTracker.completeInfo i st rs em now) := by
  constructor <;> simp [SubagentTracker.completeInfo]

theorem trackerToolInv_prune {t : SubagentTracker} (h : trackerToolInv t) :
    trackerToolInv t.prune_completed := by
  unfold SubagentTracker.prune_completed
  split
  · intro p hp
    exact h p (List.mem_of_mem_filter hp)
  · exact h

theorem trackerToolInv_applyOp {t : SubagentTracker} (h : trackerToolInv t)
    (op : TrackerOp) : trackerToolInv (applyOp t op) := by
  cases op with
  | spawnRegister tid task label origin now =>
    intro p hp
    rcases mem_dictSet hp with he | hmem
    · rw [he]
      exact toolInv_fresh tid task label origin now
    · exact h p hmem
  | thinkingPhase tid i =>
    show trackerToolInv (SubagentTracker.update_phase t tid "thinking" (some i) none none)
    unfold SubagentTracker.update_phase
    cases hg : dictGet t.agents tid with
    | none => exact h
    | some r =>
      intro p hp
      rcases mem_dictSet hp with he | hmem
      · rw [he]
        obtain ⟨h1, h2, h3⟩ := phaseInfo_thinking r (some i)
        exact ⟨fun hc => absurd (h1 ▸ hc) (by simp), fun _ => ⟨h2, h3⟩⟩
      · exact h p hmem
  | toolPhase tid i n a =>
    show trackerToolInv (SubagentTracker.update_phase t tid "tool_running" (some i) (some n) (some a))
    unfold SubagentTracker.update_phase
    cases hg : dictGet t.agents tid with
    | none => exact h
    | some r =>
      intro p hp
      rcases mem_dictSet hp with he | hmem
      · rw [he]
        obtain ⟨h1, h2, h3⟩ := phaseInfo_toolRunning r (some i) n (some a)
        exact ⟨fun _ => by simp [h2, h3], fun hc => absurd h1 hc⟩
      · exact h p hmem
  | complete tid st rs em now =>
    show trackerToolInv (SubagentTracker.mark_completed t tid st rs em now)
    unfold SubagentTracker.mark_completed
    cases hg : dictGet t.agents tid with
    | none => exact h
    | some r =>
      apply trackerToolInv_prune
      intro p hp
      rcases mem_dictSet hp with he | hmem
      · rw [he]
        exact toolInv_completeInfo r st rs em now
      · exact h p hmem

theorem trackerToolInv_foldl {t : SubagentTracker} (h : trackerToolInv t)
    (ops : List TrackerOp) : trackerToolInv (ops.foldl applyOp t) := by
  induction ops generalizing t with
  | nil => exact h
  | cons op rest ih => exact ih (trackerToolInv_applyOp h op)

/-! ## Runner-loop tracker preservation (for the exit-funnel claim) -/

theorem preserves_refl (id : String) (t : SubagentTracker) :
    preservesTracker id t t :=
  ⟨rfl, rfl, fun _ _ => rfl, fun r hr => ⟨r, hr, rfl⟩⟩

theorem preserves_trans {id : String} {t₁ t₂ t₃ : SubagentTracker}
    (h₁ : preservesTracker id t₁ t₂) (h₂ : preservesTracker id t₂ t₃) :
    preservesTracker id t₁ t₃ := by
  obtain ⟨hm₁, hk₁, ho₁, hs₁⟩ := h₁
  obtain ⟨hm₂, hk₂, ho₂, hs₂⟩ := h₂
  refine ⟨hm₂.trans hm₁, hk₂.trans hk₁, fun k hk => (ho₂ k hk).trans (ho₁ k hk), ?_⟩
  intro r hr
  obtain ⟨r₁, hr₁, hst₁⟩ := hs₁ r hr
  obtain ⟨r₂, hr₂, hst₂⟩ := hs₂ r₁ hr₁
  exact ⟨r₂, hr₂, hst₂.trans hst₁⟩

theorem preserves_update_phase (id : String) (t : SubagentTracker)
    (ph : String) (it : Option Nat) (tn : Option String) (ta : Option ToolArgs) :
    preservesTracker id t (t.update_phase id ph it tn ta) := by
  unfold SubagentTracker.update_phase
  cases hg : dictGet t.agents id with
  | none => exact preserves_refl id t
  | some r =>
    refine ⟨rfl, dictSet_map_fst hg _, fun k hk => dictGet_dictSet_ne _ _ hk, ?_⟩
    intro r₀ hr₀
    rw [hg] at hr₀
    cases hr₀
    exact ⟨SubagentTracker.phaseInfo r ph it tn ta, dictGet_dictSet_self _ _ _,
      (phaseInfo_frame r ph it tn ta).2.2.2.2.1⟩

theorem execToolCalls_preserves (env : RunnerEnv) (id : String) (it : Nat) :
    ∀ (tcs : List ToolCall) (st : LoopState),
      preservesTracker id st.tracker (execToolCalls env id it tcs st).1.tracker
  | [], st => preserves_refl id st.tracker
  | tc :: rest, st => by
    show preservesTracker id st.tracker (execToolCalls env id it (tc :: rest) st).1.tracker
    unfold execToolCalls
    cases hx : env.toolExec st.toolCount with
    | error e =>
      exact preserves_update_phase id st.tracker "tool_running" (some it)
        (some tc.name) (some tc.arguments)
    | ok result =>
      exact preserves_trans
        (preserves_update_phase id st.tracker "tool_running" (some it)
          (some tc.name) (some tc.arguments))
        (execToolCalls_preserves env id it rest _)

theorem execToolCalls_preserves_eq {env : RunnerEnv} {id : String} {it : Nat}
    {tcs : List ToolCall} {st st' : LoopState} {res : Except String Unit}
    (heq : execToolCalls env id it tcs st = (st', res)) :
    preservesTracker id st.tracker st'.tracker := by
  have h := execToolCalls_preserves env id it tcs st
  rw [heq] at h
  exact h

theorem runLoopAux_preserves (env : RunnerEnv) (id : String) :
    ∀ (fuel iteration : Nat) (st : LoopState),
      preservesTracker id st.tracker (runLoopAux env id fuel iteration st).1.tracker
  | 0, _, st => preserves_refl id st.tracker
  | fuel + 1, iteration, st => by
    unfold runLoopAux
    dsimp only
    have hth := preserves_update_phase id st.tracker "thinking"
      (some (iteration + 1)) none none
    cases hc : env.chat st.chatCount with
    | error e => exact hth
    | ok response =>
      dsimp only
      by_cases htc : response.has_tool_calls = true
      · rw [if_pos htc]
        split
        next st' u heq =>
          exact preserves_trans hth (preserves_trans
            (execToolCalls_preserves_eq heq)
            (runLoopAux_preserves env id fuel (iteration + 1) st'))
        next st' e heq =>
          exact preserves_trans hth (execToolCalls_preserves_eq heq)
      · rw [if_neg htc]
        exact hth

/-! ## String length helpers -/

theorem strLen_strTake_le (s : String) (n : Nat) : strLen (strTake s n) ≤ n := by
  simp only [strLen, strTake, List.length_take]
  omega

theorem strLen_append (a b : String) : strLen (a ++ b) = strLen a + strLen b := by
  cases a with
  | mk d₁ =>
    cases b with
    | mk d₂ =>
      show (String.mk d₁ ++ String.mk d₂).data.length = d₁.length + d₂.length
      rw [show String.mk d₁ ++ String.mk d₂ = String.mk (d₁ ++ d₂) from rfl]
      exact List.length_append d₁ d₂

/-! ## Claim theorems -/

/-- C1: for every registered runner id, after
`markCompleted(id, "Completed", summary)` the record has status
`"Completed"`, a non-null `endedAt` (namely the completion clock),
`currentPhase` `Done` (code string `"done"`), `currentTool` and
`currentToolArguments` cleared to `none`, and `resultSummary` equal to
the summary passed.  `hold` is clock monotonicity (every other finished
record ended — or, lacking an end time, started — strictly before this
completion) and `hmax` says the retention bound keeps at least one
completed record (production value 20), so the freshly completed record
is not itself pruned away. -/
theorem C1_mark_completed_fields (t : SubagentTracker) (id summary : String)
    (r : SubagentInfo) (now : Nat)
    (hnd : (t.agents.map Prod.fst).Nodup)
    (hr : t.get id = some r)
    (hmax : 1 ≤ t.max_completed)
    (hold : ∀ p ∈ t.agents, p.1 ≠ id → p.2.status ≠ "running" →
      SubagentTracker.sortKey p.2 < now) :
    ∃ r', (t.mark_completed id "Completed" (some summary) none now).get id =
        some r' ∧
      r'.status = "Completed" ∧
      r'.ended_at = some now ∧
      r'.current_phase = "done" ∧
      r'.current_tool = none ∧
      r'.current_tool_args = none ∧
      r'.result_summary = some summary :=
  ⟨_, get_mark_completed_self hnd hr hmax hold, rfl, rfl, rfl, rfl, rfl, rfl⟩

/-- Witness for C1 at a concrete one-record tracker. -/
theorem C1_witness :
    ∃ r', (wTracker.mark_completed "a1" "Completed" (some "did it") none 5).get
        "a1" = some r' ∧
      r'.status = "Completed" ∧
      r'.ended_at = some 5 ∧
      r'.current_phase = "done" ∧
      r'.current_tool = none ∧
      r'.current_tool_args = none ∧
      r'.result_summary = some "did it" :=
  C1_mark_completed_fields wTracker "a1" "did it" (testInfo "a1" 0) 5
    (by decide) (by decide) (by decide) (by decide)

/-- C2 (counterexample): the tie-breaking order of the claim fails.
`c2recA` and `c2recB` both ended at clock 100 (an `endedAt` tie), and
`c2recB` started earlier (5 < 10), so under "ordered by `endedAt`, ties
broken by `startedAt`" record `b` is the older one and must be the one
evicted with `maxCompleted = 1`.  The code instead sorts with a *stable*
sort on the single key `ended_at or started_at`, so the tie is broken by
registration order: it evicts `a` (registered first) and keeps `b`. -/
theorem C2_counterexample :
    SubagentTracker.sortKey c2recA = SubagentTracker.sortKey c2recB ∧
    c2recB.started_at < c2recA.started_at ∧
    c2pre.prune_completed.get "a" = none ∧
    c2pre.prune_completed.get "b" = some c2recB :=
  ⟨rfl, by decide, by decide, by decide⟩

/-- C2 (amended): after any completion that leaves the number of
non-running records above `maxCompleted`, the pruning policy evicts the
oldest non-running records ordered by `endedAt` (falling back to
`startedAt` when `endedAt` is absent) — with ties broken by
registration order, not by `startedAt` — until exactly `maxCompleted`
non-running records remain; a record with status Running is never
evicted, regardless of its age.  Formally, for any tracker with
duplicate-free ids: pruning leaves exactly `maxCompleted` non-running
records whenever they exceeded the bound; every running record survives
pruning unchanged; and every evicted record is at least as old (by the
sort key) as every surviving non-running record. -/
theorem C2_pruning_policy (t : SubagentTracker)
    (hnd : (t.agents.map Prod.fst).Nodup) :
    (SubagentTracker.nonRunningCount t > t.max_completed →
      SubagentTracker.nonRunningCount t.prune_completed = t.max_completed) ∧
    (∀ p ∈ t.agents, p.2.status = "running" →
      t.prune_completed.get p.1 = some p.2) ∧
    (∀ p ∈ t.agents, p.2.status ≠ "running" →
      t.prune_completed.get p.1 = none →
      ∀ q ∈ t.agents, q.2.status ≠ "running" →
        t.prune_completed.get q.1 = some q.2 →
        SubagentTracker.sortKey p.2 ≤ SubagentTracker.sortKey q.2) :=
  ⟨fun hgt => prune_count hnd hgt,
   fun _p hp hrun => prune_get_of_running hnd hp hrun,
   fun _p hp _ hpdel _q hq hqnr hqkeep =>
     prune_evict_oldest hnd hp hpdel hq hqnr hqkeep⟩

/-- Witness for the amended C2 at the concrete two-record tracker. -/
theorem C2_witness :
    (SubagentTracker.nonRunningCount c2pre > c2pre.max_completed →
      SubagentTracker.nonRunningCount c2pre.prune_completed =
        c2pre.max_completed) ∧
    (∀ p ∈ c2pre.agents, p.2.status = "running" →
      c2pre.prune_completed.get p.1 = some p.2) ∧
    (∀ p ∈ c2pre.agents, p.2.status ≠ "running" →
      c2pre.prune_completed.get p.1 = none →
      ∀ q ∈ c2pre.agents, q.2.status ≠ "running" →
        c2pre.prune_completed.get q.1 = some q.2 →
        SubagentTracker.sortKey p.2 ≤ SubagentTracker.sortKey q.2) :=
  C2_pruning_policy c2pre (by decide)

set_option maxRecDepth 4000 in
/-- C3 (counterexample): `markCompleted` itself does *not* truncate: a
201-code-point summary is stored verbatim (length 201 > 200).  The
truncation happens in the caller (`_run_subagent` slices to
`[:200]` before calling). -/
theorem C3_counterexample :
    (c3ex.get "a1").map SubagentInfo.result_summary = some (some c3long) ∧
    strLen c3long = 201 :=
  ⟨by decide, by decide⟩

/-- C3 (amended): the *runner loop's* completion calls (the only
`mark_completed` call sites, subagent.py lines 343-358) truncate the
stored summary or error to at most 200 code points before the write,
and set exactly one of `resultSummary`/`errorMessage` (the other stays
null); `markCompleted` itself stores its arguments verbatim and
enforces neither property.  Hypotheses as in C1 (registered id, clock
monotonicity, retention of at least one completed record). -/
theorem C3_runner_truncation (t : SubagentTracker) (id : String)
    (r : SubagentInfo) (outcome : Except String String) (now : Nat)
    (hnd : (t.agents.map Prod.fst).Nodup)
    (hr : t.get id = some r)
    (hmax : 1 ≤ t.max_completed)
    (hold : ∀ p ∈ t.agents, p.1 ≠ id → p.2.status ≠ "running" →
      SubagentTracker.sortKey p.2 < now) :
    ∃ r', (runnerMarkCompleted t id outcome now).get id = some r' ∧
      r'.status ≠ "running" ∧
      (∀ s, r'.result_summary = some s → strLen s ≤ 200) ∧
      (∀ s, r'.error_message = some s → strLen s ≤ 200) ∧
      ((r'.result_summary.isSome ∧ r'.error_message = none) ∨
       (r'.result_summary = none ∧ r'.error_message.isSome)) := by
  have hne₁ : ("completed" : String) ≠ "running" := by decide
  have hne₂ : ("error" : String) ≠ "running" := by decide
  cases outcome with
  | ok f =>
    refine ⟨_, get_mark_completed_self hnd hr hmax hold, hne₁, ?_, ?_, ?_⟩
    · intro s hs
      have : strTake f 200 = s := by
        simpa [SubagentTracker.completeInfo] using hs
      rw [← this]
      exact strLen_strTake_le f 200
    · intro s hs
      simp [SubagentTracker.completeInfo] at hs
    · exact Or.inl ⟨rfl, rfl⟩
  | error e =>
    refine ⟨_, get_mark_completed_self hnd hr hmax hold, hne₂, ?_, ?_, ?_⟩
    · intro s hs
      simp [SubagentTracker.completeInfo] at hs
    · intro s hs
      have : strTake e 200 = s := by
        simpa [SubagentTracker.completeInfo] using hs
      rw [← this]
      exact strLen_strTake_le e 200
    · exact Or.inr ⟨rfl, rfl⟩

/-- Witness for the amended C3: completing with a 201-code-point
summary stores a truncated, exclusive summary. -/
theorem C3_witness :
    ∃ r', (runnerMarkCompleted wTracker "a1" (Except.ok c3long) 5).get "a1" =
        some r' ∧
      r'.status ≠ "running" ∧
      (∀ s, r'.result_summary = some s → strLen s ≤ 200) ∧
      (∀ s, r'.error_message = some s → strLen s ≤ 200) ∧
      ((r'.result_summary.isSome ∧ r'.error_message = none) ∨
       (r'.result_summary = none ∧ r'.error_message.isSome)) :=
  C3_runner_truncation wTracker "a1" (testInfo "a1" 0) (Except.ok c3long) 5
    (by decide) (by decide) (by decide) (by decide)

/-- C4 (counterexample): `updatePhase` to a phase other than
`ToolRunning` does *not* always clear the current-tool fields: only the
`"thinking"` branch clears them.  Driving a record into `tool_running`
and then calling `update_phase(id, "done")` leaves `currentTool` and
`currentToolArguments` set while the phase is `"done"`. -/
theorem C4_counterexample :
    (c4ex.get "a1").map SubagentInfo.current_phase = some "done" ∧
    (c4ex.get "a1").map SubagentInfo.current_tool = some (some "exec") ∧
    (c4ex.get "a1").map SubagentInfo.current_tool_args =
      some (some [("command", "ls")]) :=
  ⟨by decide, by decide, by decide⟩

/-- C4 (amended): `update_phase` clears the current-tool fields only on
the `"thinking"` phase (and `mark_completed` clears them); other phases
leave them untouched.  Under the call shapes the manager actually
issues — registration of a fresh record, `thinking`, `tool_running`
with a tool name and arguments, and completion — the invariant does
hold: after every operation of every history, each record has
`currentTool` and `currentToolArguments` set iff its phase is
`tool_running`. -/
theorem C4_tool_fields_invariant (k : Nat) (ops : List TrackerOp) :
    ∀ p ∈ (runOps k ops).agents,
      (p.2.current_phase = "tool_running" →
        p.2.current_tool.isSome ∧ p.2.current_tool_args.isSome) ∧
      (p.2.current_phase ≠ "tool_running" →
        p.2.current_tool = none ∧ p.2.current_tool_args = none) :=
  trackerToolInv_foldl (fun p hp => absurd hp (List.not_mem_nil p)) ops

/-- Witness for the amended C4 after one spawn registration. -/
theorem C4_witness :
    ((("a1", testInfo "a1" 0) : String × SubagentInfo).2.current_phase =
        "tool_running" →
      ("a1", testInfo "a1" 0).2.current_tool.isSome ∧
        ("a1", testInfo "a1" 0).2.current_tool_args.isSome) ∧
    (("a1", testInfo "a1" 0).2.current_phase ≠ "tool_running" →
      ("a1", testInfo "a1" 0).2.current_tool = none ∧
        ("a1", testInfo "a1" 0).2.current_tool_args = none) :=
  C4_tool_fields_invariant 20 [TrackerOp.spawnRegister "a1" "t" "l" [] 0]
    ("a1", testInfo "a1" 0) (by decide)

/-- C5 (counterexample): an empty tool name is falsy in Python
(`if tool_name:`), so `updatePhase(id, "ToolRunning", toolName="")`
appends nothing — `toolsUsed` stays `[]` where the claim demands
`[""]`. -/
theorem C5_counterexample :
    (c5ex.get "a1").map SubagentInfo.tools_used = some [] ∧
    (c5ex.get "a1").map SubagentInfo.tools_used ≠ some [""] :=
  ⟨by decide, by decide⟩

/-- C5 (amended): for every registered id and every sequence of
`updatePhase(id, "ToolRunning", toolName=t)` calls, `toolsUsed` equals
the previous list extended, in invocation order and with duplicates,
by exactly the *non-empty* names passed (empty names are falsy and
skipped); entries are only appended, never removed or reordered. -/
theorem C5_tools_used_append (t : SubagentTracker) (id : String)
    (r : SubagentInfo) (ts : List String) (hr : t.get id = some r) :
    ∃ r', (runToolSeq t id ts).get id = some r' ∧
      r'.tools_used = r.tools_used ++ ts.filter (fun s => s ≠ "") := by
  induction ts generalizing t r with
  | nil => exact ⟨r, hr, by simp [runToolSeq]⟩
  | cons n rest ih =>
    have hstep := update_phase_get_self "tool_running" none (some n) none hr
    obtain ⟨r', hget, htools⟩ :=
      ih (t.update_phase id "tool_running" none (some n) none) _ hstep
    refine ⟨r', ?_, ?_⟩
    · simpa [runToolSeq] using hget
    · rw [htools, phaseInfo_toolRunning_tools]
      by_cases h : n = ""
      · simp [h]
      · simp [h, List.filter_cons, List.append_assoc]

/-- Witness for the amended C5: four calls, one with an empty name. -/
theorem C5_witness :
    ∃ r', (runToolSeq wTracker "a1" ["read_file", "", "exec", "read_file"]).get
        "a1" = some r' ∧
      r'.tools_used = (testInfo "a1" 0).tools_used ++
        (["read_file", "", "exec", "read_file"].filter (fun s => s ≠ "")) :=
  C5_tools_used_append wTracker "a1" (testInfo "a1" 0)
    ["read_file", "", "exec", "read_file"] (by decide)

/-- C6: for every id not present in the tracker, `updatePhase` and
`markCompleted` are total no-ops: they never raise (the embedding is a
total function) and return the tracker unchanged, so no record is
created or modified for any id. -/
theorem C6_unknown_id_noop (t : SubagentTracker) (id ph st : String)
    (it : Option Nat) (tn : Option String) (ta : Option ToolArgs)
    (rs em : Option String) (now : Nat) (h : t.get id = none) :
    t.update_phase id ph it tn ta = t ∧
    t.mark_completed id st rs em now = t :=
  ⟨update_phase_none ph it tn ta h, mark_completed_none st rs em now h⟩

/-- Witness for C6 at an id absent from the concrete tracker. -/
theorem C6_witness :
    wTracker.update_phase "zz" "thinking" (some 1) none none = wTracker ∧
    wTracker.mark_completed "zz" "completed" (some "s") none 3 = wTracker :=
  C6_unknown_id_noop wTracker "zz" "thinking" "completed" (some 1) none none
    (some "s") none 3 (by decide)

/-- C7: for every runner and every behaviour of the provider and the
tools — textual answer, iteration cap exhausted (the loop then
completes with the placeholder), or caught provider/capability failure
— the runner loop publishes exactly one outcome announcement to the
bus, reaches a terminal status (`"completed"` or `"error"`) with phase
`"done"`, and converts every escaped exception into the `"error"`
terminal state carrying the truncated message; nothing propagates out
(`run_subagent` is a total function).  Hypotheses as in C1. -/
theorem C7_exit_funnel (env : RunnerEnv) (t : SubagentTracker)
    (task_id task label : String) (origin : List (String × String))
    (r : SubagentInfo) (now : Nat)
    (hnd : (t.agents.map Prod.fst).Nodup)
    (hr : t.get task_id = some r)
    (hmax : 1 ≤ t.max_completed)
    (hold : ∀ p ∈ t.agents, p.1 ≠ task_id → p.2.status ≠ "running" →
      SubagentTracker.sortKey p.2 < now) :
    (run_subagent env t task_id task label origin now).2.length = 1 ∧
    ∃ r', (run_subagent env t task_id task label origin now).1.get task_id =
        some r' ∧
      r'.current_phase = "done" ∧
      (r'.status = "completed" ∨ r'.status = "error") ∧
      (∀ st e, runLoopAux env task_id 15 0
          (initLoopState t env.system_prompt task) = (st, Except.error e) →
        r'.status = "error" ∧ r'.error_message = some (strTake e 200)) := by
  have hpres := runLoopAux_preserves env task_id 15 0
    (initLoopState t env.system_prompt task)
  rcases hres : runLoopAux env task_id 15 0
    (initLoopState t env.system_prompt task) with ⟨st, res⟩
  rw [hres] at hpres
  obtain ⟨hm, hk, ho, hs⟩ := hpres
  obtain ⟨r₁, hr₁, hst₁⟩ := hs r hr
  have hnd₁ : (st.tracker.agents.map Prod.fst).Nodup := by
    rw [hk]
    exact hnd
  have hmax₁ : 1 ≤ st.tracker.max_completed := by
    rw [hm]
    exact hmax
  have hold₁ : ∀ p ∈ st.tracker.agents, p.1 ≠ task_id →
      p.2.status ≠ "running" → SubagentTracker.sortKey p.2 < now := by
    intro p hp hp1 hpnr
    have hg : dictGet st.tracker.agents p.1 = some p.2 := mem_dictGet hnd₁ hp
    rw [ho p.1 hp1] at hg
    exact hold (p.1, p.2) (dictGet_mem hg) hp1 hpnr
  have hr₁' : st.tracker.get task_id = some r₁ := hr₁
  unfold run_subagent
  rw [hres]
  cases res with
  | ok f =>
    dsimp only
    refine ⟨rfl, _, get_mark_completed_self hnd₁ hr₁' hmax₁ hold₁, rfl,
      Or.inl rfl, ?_⟩
    intro st' e heq
    simp at heq
  | error e =>
    dsimp only
    refine ⟨rfl, _, get_mark_completed_self hnd₁ hr₁' hmax₁ hold₁, rfl,
      Or.inr rfl, ?_⟩
    intro st' e' heq
    have he : e = e' := by
      have h2 := congrArg Prod.snd heq
      simpa using h2
    rw [← he]
    exact ⟨rfl, rfl⟩

/-- Witness for C7: a provider that answers immediately. -/
theorem C7_witness :
    (run_subagent wEnvOk wTracker "a1" "t" "l" [] 5).2.length = 1 ∧
    ∃ r', (run_subagent wEnvOk wTracker "a1" "t" "l" [] 5).1.get "a1" =
        some r' ∧
      r'.current_phase = "done" ∧
      (r'.status = "completed" ∨ r'.status = "error") ∧
      (∀ st e, runLoopAux wEnvOk "a1" 15 0
          (initLoopState wTracker wEnvOk.system_prompt "t") =
            (st, Except.error e) →
        r'.status = "error" ∧ r'.error_message = some (strTake e 200)) :=
  C7_exit_funnel wEnvOk wTracker "a1" "t" "l" [] (testInfo "a1" 0) 5
    (by decide) (by decide) (by decide) (by decide)

/-- C8: the activity formatter satisfies the fixed-table examples
`format("read_file", {path:"/foo/bar.py"}) = "Reading /foo/bar.py"` and
`format("exec", {command:"git status"}) = "Running \x60git status\x60"`; for
every value longer than the budget (any budget of at least 4 units —
the formatter's fixed budget is 60 and the spec's example budget 30),
truncation keeps the tail prefixed with `"..."` when the value contains
a path separator and keeps the head suffixed with `"..."` otherwise,
the result being exactly as long as the budget (hence at most the
budget); unknown tool names yield the raw tool name with no argument. -/
theorem C8_formatter (v : String) (n : Nat) :
    format_tool_status "read_file" [("path", "/foo/bar.py")] =
      "Reading /foo/bar.py" ∧
    format_tool_status "exec" [("command", "git status")] =
      "Running `git status`" ∧
    (4 ≤ n → n < strLen v →
      ((strContains v '/' || strContains v '\\') = true →
        truncate v n = "..." ++ strDrop v (strLen v - (n - 3)) ∧
        strLen (truncate v n) = n) ∧
      ((strContains v '/' || strContains v '\\') = false →
        truncate v n = strTake v (n - 3) ++ "..." ∧
        strLen (truncate v n) = n)) ∧
    (∀ name args, dictGet TOOL_DISPLAY_MAP name = none →
      format_tool_status name args = name) := by
  refine ⟨by decide, by decide, ?_, ?_⟩
  · intro h4 hlen
    constructor
    · intro hsep
      have he : truncate v n = "..." ++ strDrop v (strLen v - (n - 3)) := by
        unfold truncate sliceFrom
        rw [if_neg (by omega), if_pos hsep, if_pos (by omega)]
        congr 2
        omega
      refine ⟨he, ?_⟩
      rw [he, strLen_append]
      have h3 : strLen "..." = 3 := by decide
      simp only [strLen, strDrop, List.length_drop] at *
      omega
    · intro hsep
      have he : truncate v n = strTake v (n - 3) ++ "..." := by
        unfold truncate sliceTo
        rw [if_neg (by omega), hsep]
        rw [if_neg (by simp : ¬ (false = true)), if_neg (by omega)]
        congr 2
        omega
      refine ⟨he, ?_⟩
      rw [he, strLen_append]
      have h3 : strLen "..." = 3 := by decide
      simp only [strLen, strTake, List.length_take] at *
      omega
  · intro name args h
    simp [format_tool_status, h]

/-- Witness for C8: the 70-code-point path under the 30-unit budget of
the spec example — the result keeps the tail, is prefixed by `"..."`
and has length exactly 30. -/
theorem C8_witness :
    truncate wLongPath 30 = "..." ++ strDrop wLongPath (strLen wLongPath - 27) ∧
    strLen (truncate wLongPath 30) = 30 :=
  ((C8_formatter wLongPath 30).2.2.1 (by decide) (by decide)).1 (by decide)

/-- C9: the status query tool's `execute` is a total function into
strings (it never raises by construction): `detail` with the id omitted
(or empty, which the string contract cannot distinguish from omitted)
returns the "id required" text; `detail` with a non-empty id absent
from the tracker returns the descriptive "not found" text; any unknown
action returns the "Unknown action" text — all as ordinary result
strings. -/
theorem C9_status_tool (tracker : SubagentTracker) (tid action : String)
    (task_id : Option String) (now : Nat) :
    SubagentStatusTool.execute tracker "detail" none now =
      "Error: task_id is required for 'detail' action." ∧
    (tid ≠ "" → tracker.get tid = none →
      SubagentStatusTool.execute tracker "detail" (some tid) now =
        "No subagent found with ID '" ++ tid ++ "'.") ∧
    (action ≠ "list" → action ≠ "detail" → action ≠ "all" →
      SubagentStatusTool.execute tracker action task_id now =
        "Unknown action: " ++ action) := by
  refine ⟨?_, ?_, ?_⟩
  · simp [SubagentStatusTool.execute, SubagentStatusTool.detail]
  · intro h1 h2
    simp [SubagentStatusTool.execute, SubagentStatusTool.detail, h1, h2]
  · intro h1 h2 h3
    simp [SubagentStatusTool.execute, h1, h2, h3]

/-- Witness for C9 at a concrete tracker, absent id and unknown action. -/
theorem C9_witness :
    SubagentStatusTool.execute wTracker "detail" (some "zz") 3 =
      "No subagent found with ID '" ++ "zz" ++ "'." ∧
    SubagentStatusTool.execute wTracker "bogus" none 3 =
      "Unknown action: " ++ "bogus" :=
  ⟨(C9_status_tool wTracker "zz" "bogus" none 3).2.1 (by decide) (by decide),
   (C9_status_tool wTracker "zz" "bogus" none 3).2.2 (by decide) (by decide)
     (by decide)⟩

/-- C10: for every registered id, `updatePhase` is frame-bounded: every
other record is unchanged (and so is the retention bound), and the
record's own `id`, `task`, `label`, `origin`, `status`,
`maxIterations`, `startedAt`, `endedAt`, `resultSummary` and
`errorMessage` are unchanged — only `currentPhase`, `iteration`,
`currentTool`, `currentToolArguments` and `toolsUsed` can change. -/
theorem C10_update_phase_frame (t : SubagentTracker) (id ph : String)
    (it : Option Nat) (tn : Option String) (ta : Option ToolArgs)
    (r : SubagentInfo) (hr : t.get id = some r) :
    (∀ k, k ≠ id → (t.update_phase id ph it tn ta).get k = t.get k) ∧
    (t.update_phase id ph it tn ta).max_completed = t.max_completed ∧
    ∃ r', (t.update_phase id ph it tn ta).get id = some r' ∧
      r'.task_id = r.task_id ∧ r'.task = r.task ∧ r'.label = r.label ∧
      r'.origin = r.origin ∧ r'.status = r.status ∧
      r'.max_iterations = r.max_iterations ∧ r'.started_at = r.started_at ∧
      r'.ended_at = r.ended_at ∧ r'.result_summary = r.result_summary ∧
      r'.error_message = r.error_message := by
  have hr' : dictGet t.agents id = some r := hr
  refine ⟨fun k hk => update_phase_get_ne ph it tn ta hk, ?_, ?_⟩
  · unfold SubagentTracker.update_phase
    rw [hr']
  · exact ⟨_, update_phase_get_self ph it tn ta hr,
      phaseInfo_frame r ph it tn ta⟩

/-- Witness for C10 at a concrete tracker and a `thinking` update. -/
theorem C10_witness :
    (∀ k, k ≠ "a1" →
      (wTracker.update_phase "a1" "thinking" (some 2) none none).get k =
        wTracker.get k) ∧
    (wTracker.update_phase "a1" "thinking" (some 2) none none).max_completed =
      wTracker.max_completed ∧
    ∃ r', (wTracker.update_phase "a1" "thinking" (some 2) none none).get "a1" =
        some r' ∧
      r'.task_id = (testInfo "a1" 0).task_id ∧
      r'.task = (testInfo "a1" 0).task ∧
      r'.label = (testInfo "a1" 0).label ∧
      r'.origin = (testInfo "a1" 0).origin ∧
      r'.status = (testInfo "a1" 0).status ∧
      r'.max_iterations = (testInfo "a1" 0).max_iterations ∧
      r'.started_at = (testInfo "a1" 0).started_at ∧
      r'.ended_at = (testInfo "a1" 0).ended_at ∧
      r'.result_summary = (testInfo "a1" 0).result_summary ∧
      r'.error_message = (testInfo "a1" 0).error_message :=
  C10_update_phase_frame wTracker "a1" "thinking" (some 2) none none
    (testInfo "a1" 0) (by decide)

end Nanobot
